import Mathlib

/-!
Verification of the TVBox helper scripts (FPS1024/tvbox).

The repository consists of four sequential Python scripts that fetch JSON
documents over HTTP and merge them into JSON files on disk:

* `bin/parse_api.py`      — Config Fetcher (`parse_tvbox_api`)
* `parse_sites.py`        — Site Enumerator (`sanitize_filename`, `parse_all_sites`)
* `bin/fetch_all_pages.py`— Page Aggregator (`fetch_all_pages`, `get_site_api_url`)
* `bin/fetch_play_urls.py`— Play-URL Backfill (`update_site_with_play_urls`)

Modelling conventions used throughout this file:

* JSON values are modelled by the inductive type `JVal`; JSON numbers are
  modelled as integers (no claim under scrutiny depends on float values).
* A Python `dict` holding JSON data is modelled as an insertion-ordered
  association list `Doc := List (String × JVal)`; `Doc.lookup` is `d.get(k)`
  and `Doc.setKey` is `d[k] = v` (replace in place if the key exists,
  append otherwise), matching CPython dict semantics.
* Network effects are modelled by passing the fetching function as an
  explicit oracle (`fetch : Nat → Option Doc` for page fetches, etc.);
  `none` models any caught request failure (network error, non-2xx status,
  JSON decode error), exactly the cases the scripts catch and turn into
  `None`.
* Places where the Python would raise an *uncaught* exception on
  ill-typed data (e.g. a non-list `"list"` field reaching `.extend`) are
  modelled as an overall `none` result; the theorems below only concern
  runs on well-typed data, stated through explicit hypotheses.
-/

/-- A JSON value.  Numbers are modelled as integers. -/
inductive JVal where
  | jnull : JVal
  | jbool : Bool → JVal
  | jnum : Int → JVal
  | jstr : String → JVal
  | jarr : List JVal → JVal
  | jobj : List (String × JVal) → JVal

/-- A JSON object / Python dict: an insertion-ordered association list.
Documents parsed from JSON have unique keys. -/
abbrev Doc : Type := List (String × JVal)

/-- Python truthiness of a JSON value (`if x:`): `None`, `False`, `0`, `""`,
`[]` and `{}` are falsy, everything else is truthy. -/
def JVal.truthy : JVal → Bool
  | .jnull => false
  | .jbool b => b
  | .jnum n => n != 0
  | .jstr s => s != ""
  | .jarr xs => !xs.isEmpty
  | .jobj fs => !fs.isEmpty

/-- `d.get(k)`: the value of the first entry with key `k`, if any. -/
def Doc.lookup : Doc → String → Option JVal
  | [], _ => none
  | (a, v) :: rest, k => if a = k then some v else Doc.lookup rest k

/-- `k in d`. -/
def Doc.hasKey (d : Doc) (k : String) : Bool :=
  (Doc.lookup d k).isSome

/-- `d[k] = v`: replace the first entry with key `k` in place (CPython keeps
the key's position), append a new entry at the end otherwise.  On the
unique-keyed documents produced by JSON parsing this is exactly CPython's
dict assignment. -/
def Doc.setKey : Doc → String → JVal → Doc
  | [], k, v => [(k, v)]
  | (a, b) :: rest, k, v =>
    if a = k then (k, v) :: rest else (a, b) :: Doc.setKey rest k v

/-- `k in d and d.get(k)` (key present with a truthy value). -/
def Doc.hasTruthy (d : Doc) (k : String) : Bool :=
  match Doc.lookup d k with
  | some v => v.truthy
  | none => false

/-- `d.get(k, default)` where the call site then uses the value as an `int`
(`fetch_all_pages` line 130, `pagecount = first_page_data.get('pagecount', 1)`).
A present non-integer value would make the Python comparison raise; that is
modelled as `none`. -/
def getIntD (d : Doc) (k : String) (dflt : Int) : Option Int :=
  match Doc.lookup d k with
  | none => some dflt
  | some (.jnum n) => some n
  | some _ => none

/-- `d.get(k, [])` where the call site then uses the value as a list
(`fetch_all_pages` lines 146 and 155).  A present non-array value would make
the Python `.copy()` / `.extend` raise; that is modelled as `none`. -/
def getArrD (d : Doc) (k : String) : Option (List JVal) :=
  match Doc.lookup d k with
  | none => some []
  | some (.jarr xs) => some xs
  | some _ => none

/-! ## Page Aggregator (`bin/fetch_all_pages.py`) -/

/-- The page-fetch loop of `fetch_all_pages` (lines 149-166): for each page
number, call `fetch_page`; on failure (`None`) continue; otherwise take the
page's `list` (default `[]`) and extend the accumulator when it is non-empty.
`fetch page = none` models the caught per-page failure of `fetch_page`
(lines 81-91: network error, non-2xx, non-JSON body). -/
def extendPages (fetch : Nat → Option Doc) : List Nat → List JVal → Option (List JVal)
  | [], all_videos => some all_videos
  | page :: rest, all_videos =>
    match fetch page with
    | none => extendPages fetch rest all_videos
    | some page_data =>
      match getArrD page_data "list" with
      | none => none
      | some page_videos =>
        if page_videos.isEmpty then extendPages fetch rest all_videos
        else extendPages fetch rest (all_videos ++ page_videos)

/-- The merged document built by `fetch_all_pages` lines 168-172:
`complete_data = first_page_data.copy()`, then `list`, `page` and `total`
are overwritten. -/
def complete_data (first_page_data : Doc) (all_videos : List JVal) : Doc :=
  ((first_page_data.setKey "list" (.jarr all_videos)).setKey "page"
      (.jnum 1)).setKey "total" (.jnum all_videos.length)

/-- `fetch_all_pages` (lines 129-180), after the file has been read and the
API URL resolved.  The result also records, for the claims about network
traffic, the list of page numbers passed to `fetch_page`; the loop ranges
over `range(2, pagecount + 1)`. -/
def fetch_all_pages (first_page_data : Doc) (fetch : Nat → Option Doc) :
    Option (Doc × List Nat) :=
  match getIntD first_page_data "pagecount" 1 with
  | none => none
  | some pagecount =>
    if pagecount ≤ 1 then some (first_page_data, [])
    else
      match getArrD first_page_data "list" with
      | none => none
      | some init =>
        let pages := List.range' 2 (pagecount - 1).toNat
        match extendPages fetch pages init with
        | none => none
        | some all_videos => some (complete_data first_page_data all_videos, pages)

/-- The `list` contribution of one page to the merged accumulator: a failed
fetch contributes nothing, a successful fetch contributes its `list` field
(`[]` when absent); `none` when the fetched document has an ill-typed
`list` field. -/
def pageContrib (fetch : Nat → Option Doc) (page : Nat) : Option (List JVal) :=
  match fetch page with
  | none => some []
  | some page_data => getArrD page_data "list"

/-! ### Association-list lemmas -/

theorem Doc.lookup_setKey_self (d : Doc) (k : String) (v : JVal) :
    Doc.lookup (Doc.setKey d k v) k = some v := by
  induction d with
  | nil => simp [Doc.setKey, Doc.lookup]
  | cons p rest ih =>
    obtain ⟨a, b⟩ := p
    by_cases hak : a = k
    · simp [Doc.setKey, hak, Doc.lookup]
    · simp [Doc.setKey, hak, Doc.lookup, ih]

theorem Doc.lookup_setKey_ne (d : Doc) (k : String) (v : JVal) (q : String)
    (h : q ≠ k) : Doc.lookup (Doc.setKey d k v) q = Doc.lookup d q := by
  induction d with
  | nil => simp [Doc.setKey, Doc.lookup, Ne.symm h]
  | cons p rest ih =>
    obtain ⟨a, b⟩ := p
    by_cases hak : a = k
    · subst hak
      simp [Doc.setKey, Doc.lookup, Ne.symm h]
    · by_cases haq : a = q
      · simp [Doc.setKey, hak, Doc.lookup, haq, h]
      · simp [Doc.setKey, hak, Doc.lookup, haq, ih]

theorem Doc.lookup_setKey_isSome (d : Doc) (k : String) (v : JVal) (q : String)
    (h : (Doc.lookup d q).isSome) :
    (Doc.lookup (Doc.setKey d k v) q).isSome := by
  by_cases hqk : q = k
  · subst hqk
    rw [Doc.lookup_setKey_self]
    rfl
  · rwa [Doc.lookup_setKey_ne d k v q hqk]

/-! ### The page-fetch loop -/

theorem extendPages_eq (fetch : Nat → Option Doc) (pages : List Nat)
    (L : Nat → List JVal)
    (hL : ∀ p ∈ pages, pageContrib fetch p = some (L p)) :
    ∀ acc : List JVal,
      extendPages fetch pages acc = some (acc ++ (pages.map L).flatten) := by
  induction pages with
  | nil => intro acc; simp [extendPages]
  | cons p rest ih =>
    intro acc
    have hp := hL p (by simp)
    have hrest : ∀ q ∈ rest, pageContrib fetch q = some (L q) := by
      intro q hq
      exact hL q (by simp [hq])
    cases hf : fetch p with
    | none =>
      have hLp : L p = [] := by
        rw [pageContrib, hf] at hp
        exact (Option.some.injEq _ _ ▸ hp).symm
      simp only [extendPages, hf, ih hrest acc]
      simp [hLp]
    | some page_data =>
      have hArr : getArrD page_data "list" = some (L p) := by
        rwa [pageContrib, hf] at hp
      simp only [extendPages, hf, hArr]
      by_cases hemp : (L p).isEmpty
      · have hLp : L p = [] := by simpa [List.isEmpty_iff] using hemp
        rw [if_pos hemp, ih hrest acc]
        simp [hLp]
      · rw [if_neg hemp, ih hrest (acc ++ L p)]
        simp

theorem complete_data_lookup_list (d : Doc) (allv : List JVal) :
    Doc.lookup (complete_data d allv) "list" = some (.jarr allv) := by
  unfold complete_data
  rw [Doc.lookup_setKey_ne _ _ _ _ (by decide), Doc.lookup_setKey_ne _ _ _ _ (by decide),
    Doc.lookup_setKey_self]

theorem complete_data_lookup_page (d : Doc) (allv : List JVal) :
    Doc.lookup (complete_data d allv) "page" = some (.jnum 1) := by
  unfold complete_data
  rw [Doc.lookup_setKey_ne _ _ _ _ (by decide), Doc.lookup_setKey_self]

theorem complete_data_lookup_total (d : Doc) (allv : List JVal) :
    Doc.lookup (complete_data d allv) "total" = some (.jnum allv.length) := by
  unfold complete_data
  rw [Doc.lookup_setKey_self]

/-- Behaviour of `fetch_all_pages` on a well-typed first page with more than
one page, given the per-page contributions of the fetch oracle. -/
theorem fetch_all_pages_spec (first : Doc) (fetch : Nat → Option Doc) (N : Int)
    (l0 : List JVal) (L : Nat → List JVal)
    (hN : Doc.lookup first "pagecount" = some (.jnum N)) (h1 : 1 < N)
    (hl0 : getArrD first "list" = some l0)
    (hC : ∀ p ∈ List.range' 2 (N - 1).toNat, pageContrib fetch p = some (L p)) :
    fetch_all_pages first fetch =
      some (complete_data first
          (l0 ++ ((List.range' 2 (N - 1).toNat).map L).flatten),
        List.range' 2 (N - 1).toNat) := by
  have hInt : getIntD first "pagecount" 1 = some N := by
    simp [getIntD, hN]
  simp only [fetch_all_pages, hInt]
  rw [if_neg (by omega)]
  simp only [hl0, extendPages_eq fetch _ L hC l0]

/-- Claim C1: for a first-page document with `pagecount = N > 1`, if every
fetch of pages `2..N` succeeds, the output `list` is the first page's `list`
concatenated with each fetched page's `list` in ascending page order, the
output `total` is the length of that concatenation, and the output `page`
is `1`. -/
theorem claim_C1_all_pages_merged (first : Doc) (fetch : Nat → Option Doc)
    (N : Int) (l0 allv : List JVal) (L : Nat → List JVal) (pages : List Nat)
    (hN : Doc.lookup first "pagecount" = some (.jnum N)) (h1 : 1 < N)
    (hl0 : getArrD first "list" = some l0)
    (hpages : pages = List.range' 2 (N - 1).toNat)
    (hf : ∀ p ∈ pages, ∃ d, fetch p = some d ∧ getArrD d "list" = some (L p))
    (hall : allv = l0 ++ (pages.map L).flatten) :
    fetch_all_pages first fetch = some (complete_data first allv, pages)
      ∧ Doc.lookup (complete_data first allv) "list" = some (.jarr allv)
      ∧ Doc.lookup (complete_data first allv) "total" = some (.jnum allv.length)
      ∧ Doc.lookup (complete_data first allv) "page" = some (.jnum 1) := by
  subst hpages hall
  refine ⟨?_, complete_data_lookup_list _ _, complete_data_lookup_total _ _,
    complete_data_lookup_page _ _⟩
  apply fetch_all_pages_spec first fetch N l0 L hN h1 hl0
  intro p hp
  obtain ⟨d, hd, hdl⟩ := hf p hp
  simp [pageContrib, hd, hdl]

/-- Witness for C1 at a concrete two-page site: page 1 holds `[10]`, page 2
returns `[20]`; the merged output is `[10, 20]` with `total = 2`, `page = 1`. -/
theorem claim_C1_all_pages_merged_witness :
    fetch_all_pages [("pagecount", JVal.jnum 2), ("list", JVal.jarr [JVal.jnum 10])]
        (fun _ => some [("list", JVal.jarr [JVal.jnum 20])]) =
      some (complete_data [("pagecount", JVal.jnum 2), ("list", JVal.jarr [JVal.jnum 10])]
          [JVal.jnum 10, JVal.jnum 20], [2])
      ∧ Doc.lookup (complete_data [("pagecount", JVal.jnum 2), ("list", JVal.jarr [JVal.jnum 10])]
            [JVal.jnum 10, JVal.jnum 20]) "list"
          = some (.jarr [JVal.jnum 10, JVal.jnum 20])
      ∧ Doc.lookup (complete_data [("pagecount", JVal.jnum 2), ("list", JVal.jarr [JVal.jnum 10])]
            [JVal.jnum 10, JVal.jnum 20]) "total"
          = some (.jnum ([JVal.jnum 10, JVal.jnum 20] : List JVal).length)
      ∧ Doc.lookup (complete_data [("pagecount", JVal.jnum 2), ("list", JVal.jarr [JVal.jnum 10])]
            [JVal.jnum 10, JVal.jnum 20]) "page"
          = some (.jnum 1) :=
  claim_C1_all_pages_merged _ _ 2 [JVal.jnum 10] [JVal.jnum 10, JVal.jnum 20]
    (fun _ => [JVal.jnum 20]) [2] rfl (by decide) rfl (by decide)
    (by intro p hp; exact ⟨_, rfl, rfl⟩) rfl

/-- Claim C2: for a first-page document whose `pagecount` is at most 1 or
absent (defaulting to 1), `fetch_all_pages` returns the input document
unchanged and fetches no page at all. -/
theorem claim_C2_single_page_no_fetch (first : Doc) (fetch : Nat → Option Doc)
    (h : Doc.lookup first "pagecount" = none ∨
      ∃ n : Int, Doc.lookup first "pagecount" = some (.jnum n) ∧ n ≤ 1) :
    fetch_all_pages first fetch = some (first, []) := by
  have hInt : ∃ n : Int, getIntD first "pagecount" 1 = some n ∧ n ≤ 1 := by
    rcases h with h | ⟨n, hn, hle⟩
    · exact ⟨1, by simp [getIntD, h], le_refl 1⟩
    · exact ⟨n, by simp [getIntD, hn], hle⟩
  obtain ⟨n, hn, hle⟩ := hInt
  simp only [fetch_all_pages, hn]
  rw [if_pos hle]

/-- Witness for C2: a document without a `pagecount` key is returned as is,
with an empty list of fetched pages. -/
theorem claim_C2_single_page_no_fetch_witness :
    fetch_all_pages [("page", JVal.jnum 1)] (fun _ => none) =
      some ([("page", JVal.jnum 1)], []) :=
  claim_C2_single_page_no_fetch _ _ (Or.inl rfl)

/-- Claim C3: if the fetch of some page `k` (with `1 < k ≤ N`) fails while
every other page fetch succeeds, the aggregator does not abort and its
output `list` holds the records of every successfully fetched page in
ascending page order, omitting only page `k`'s contribution. -/
theorem claim_C3_failed_page_skipped (first : Doc) (fetch : Nat → Option Doc)
    (N : Int) (l0 allv : List JVal) (L : Nat → List JVal) (pages : List Nat)
    (k : Nat)
    (hN : Doc.lookup first "pagecount" = some (.jnum N)) (h1 : 1 < N)
    (hl0 : getArrD first "list" = some l0)
    (hpages : pages = List.range' 2 (N - 1).toNat)
    (_hk : k ∈ pages) (hkfail : fetch k = none)
    (hok : ∀ p ∈ pages, p ≠ k →
      ∃ d, fetch p = some d ∧ getArrD d "list" = some (L p))
    (hall : allv = l0 ++ (pages.map (fun p => if p = k then [] else L p)).flatten) :
    fetch_all_pages first fetch = some (complete_data first allv, pages)
      ∧ Doc.lookup (complete_data first allv) "list" = some (.jarr allv)
      ∧ Doc.lookup (complete_data first allv) "total" = some (.jnum allv.length) := by
  subst hpages hall
  refine ⟨?_, complete_data_lookup_list _ _, complete_data_lookup_total _ _⟩
  apply fetch_all_pages_spec first fetch N l0 (fun p => if p = k then [] else L p)
    hN h1 hl0
  intro p hp
  by_cases hpk : p = k
  · subst hpk
    simp [pageContrib, hkfail]
  · obtain ⟨d, hd, hdl⟩ := hok p hp hpk
    simp [pageContrib, hd, hdl, hpk]

/-- Witness for C3: a three-page site where page 2 fails and page 3 returns
`[30]`; the output is `[10, 30]`. -/
theorem claim_C3_failed_page_skipped_witness :
    fetch_all_pages [("pagecount", JVal.jnum 3), ("list", JVal.jarr [JVal.jnum 10])]
        (fun p => if p = 2 then none else some [("list", JVal.jarr [JVal.jnum 30])]) =
      some (complete_data [("pagecount", JVal.jnum 3), ("list", JVal.jarr [JVal.jnum 10])]
          [JVal.jnum 10, JVal.jnum 30], [2, 3])
      ∧ Doc.lookup (complete_data [("pagecount", JVal.jnum 3), ("list", JVal.jarr [JVal.jnum 10])]
            [JVal.jnum 10, JVal.jnum 30]) "list"
          = some (.jarr [JVal.jnum 10, JVal.jnum 30])
      ∧ Doc.lookup (complete_data [("pagecount", JVal.jnum 3), ("list", JVal.jarr [JVal.jnum 10])]
            [JVal.jnum 10, JVal.jnum 30]) "total"
          = some (.jnum ([JVal.jnum 10, JVal.jnum 30] : List JVal).length) :=
  claim_C3_failed_page_skipped _ _ 3 [JVal.jnum 10] [JVal.jnum 10, JVal.jnum 30]
    (fun _ => [JVal.jnum 30]) [2, 3] 2 rfl (by decide) rfl (by decide) (by decide) rfl
    (by
      intro p hp hpk
      have hp3 : p = 3 := by
        rcases List.mem_cons.mp hp with h | h
        · exact absurd h hpk
        · simpa using h
      subst hp3
      exact ⟨_, rfl, rfl⟩)
    rfl

/-- Claim C4: on a first-page document with `pagecount > 1`, the output
document agrees with the input on every key other than `list`, `page` and
`total`; only those three keys are rewritten. -/
theorem claim_C4_frame (first : Doc) (fetch : Nat → Option Doc) (N : Int)
    (out : Doc) (pages : List Nat)
    (hN : Doc.lookup first "pagecount" = some (.jnum N)) (h1 : 1 < N)
    (hrun : fetch_all_pages first fetch = some (out, pages)) :
    ∀ q : String, q ≠ "list" → q ≠ "page" → q ≠ "total" →
      Doc.lookup out q = Doc.lookup first q := by
  intro q hql hqp hqt
  have hInt : getIntD first "pagecount" 1 = some N := by
    simp [getIntD, hN]
  simp only [fetch_all_pages, hInt] at hrun
  rw [if_neg (by omega)] at hrun
  cases harr : getArrD first "list" with
  | none => simp only [harr] at hrun; exact absurd hrun (by simp)
  | some init =>
    simp only [harr] at hrun
    cases hext : extendPages fetch (List.range' 2 (N - 1).toNat) init with
    | none => simp only [hext] at hrun; exact absurd hrun (by simp)
    | some allv =>
      simp only [hext] at hrun
      simp only [Option.some.injEq, Prod.mk.injEq] at hrun
      rw [← hrun.1]
      unfold complete_data
      rw [Doc.lookup_setKey_ne _ _ _ _ hqt, Doc.lookup_setKey_ne _ _ _ _ hqp,
        Doc.lookup_setKey_ne _ _ _ _ hql]

/-- Witness for C4: the untouched `name` key of a concrete two-page run. -/
theorem claim_C4_frame_witness :
    Doc.lookup (complete_data [("pagecount", JVal.jnum 2),
        ("list", JVal.jarr []), ("name", JVal.jstr "n")] []) "name"
      = Doc.lookup [("pagecount", JVal.jnum 2),
        ("list", JVal.jarr []), ("name", JVal.jstr "n")] "name" :=
  claim_C4_frame [("pagecount", JVal.jnum 2), ("list", JVal.jarr []), ("name", JVal.jstr "n")]
    (fun _ => none) 2
    (complete_data [("pagecount", JVal.jnum 2), ("list", JVal.jarr []), ("name", JVal.jstr "n")] [])
    [2] rfl (by decide) rfl "name" (by decide) (by decide) (by decide)

/-! ## Site Enumerator: filename sanitization (`parse_sites.py`, lines 28-50) -/

/-- The characters `sanitize_filename` replaces (`invalid_chars`, line 39). -/
def invalid_chars : List Char :=
  ['/', '\\', ':', '*', '?', '"', '<', '>', '|']

/-- `name.replace(old, new)` for a single character pattern. -/
def replaceChar (s : List Char) (old new : Char) : List Char :=
  s.map (fun c => if c = old then new else c)

/-- The replacement loop of `sanitize_filename` (lines 40-41). -/
def replaceInvalid (name : List Char) : List Char :=
  invalid_chars.foldl (fun acc ch => replaceChar acc ch '_') name

/-- The characters stripped by Python's `str.strip()` (restricted to the
ASCII whitespace characters; the claims only involve those). -/
def isPySpace (c : Char) : Bool :=
  c = ' ' || c = '\t' || c = '\n' || c = '\r' || c = '\x0b' || c = '\x0c'

def isDot (c : Char) : Bool := c = '.'

/-- Python's `str.strip(chars)`: remove the longest run of matching
characters from both ends. -/
def pyStrip (p : Char → Bool) (s : List Char) : List Char :=
  ((s.dropWhile p).reverse.dropWhile p).reverse

/-- `sanitize_filename` (`parse_sites.py` lines 28-50): replace each invalid
character with `_`, then `strip()` (whitespace) then `strip('.')`, and fall
back to `'unknown'` when the result is empty. -/
def sanitize_filename (name : List Char) : List Char :=
  if (pyStrip isDot (pyStrip isPySpace (replaceInvalid name))).isEmpty then
    "unknown".toList
  else
    pyStrip isDot (pyStrip isPySpace (replaceInvalid name))

/-! ### Lemmas about the sanitizer -/

theorem mem_foldl_replaceChar (cs : List Char) (c : Char) :
    ∀ s : List Char, c ∈ cs.foldl (fun acc ch => replaceChar acc ch '_') s →
      c = '_' ∨ (c ∈ s ∧ c ∉ cs) := by
  induction cs with
  | nil =>
    intro s hc
    exact Or.inr ⟨hc, by simp⟩
  | cons x rest ih =>
    intro s hc
    rcases ih (replaceChar s x '_') hc with h | ⟨hmem, hnot⟩
    · exact Or.inl h
    · obtain ⟨d, hd, hcd⟩ := List.mem_map.mp hmem
      by_cases hdx : d = x
      · subst hdx
        simp at hcd
        exact Or.inl hcd.symm
      · rw [if_neg hdx] at hcd
        subst hcd
        refine Or.inr ⟨hd, ?_⟩
        simp [hdx, hnot]

theorem foldl_replaceChar_all (cs : List Char) :
    ∀ s : List Char, (∀ c ∈ s, c ∈ cs ∨ c = '_') →
      cs.foldl (fun acc ch => replaceChar acc ch '_') s =
        List.replicate s.length '_' := by
  induction cs with
  | nil =>
    intro s hs
    have : ∀ c ∈ s, c = '_' := by
      intro c hc
      rcases hs c hc with h | h
      · simp at h
      · exact h
    simp only [List.foldl_nil]
    exact List.eq_replicate_iff.mpr ⟨rfl, this⟩
  | cons x rest ih =>
    intro s hs
    have hlen : (replaceChar s x '_').length = s.length := by
      simp [replaceChar]
    rw [List.foldl_cons, ih (replaceChar s x '_') ?_, hlen]
    intro c hc
    obtain ⟨d, hd, hcd⟩ := List.mem_map.mp hc
    by_cases hdx : d = x
    · subst hdx
      simp at hcd
      exact Or.inr hcd.symm
    · rw [if_neg hdx] at hcd
      subst hcd
      rcases hs d hd with h | h
      · rcases List.mem_cons.mp h with h' | h'
        · exact absurd h' hdx
        · exact Or.inl h'
      · exact Or.inr h

theorem head_dropWhile_false (p : Char → Bool) (l : List Char) (c : Char)
    (h : (l.dropWhile p).head? = some c) : p c = false := by
  induction l with
  | nil => simp [List.dropWhile] at h
  | cons a as ih =>
    rw [List.dropWhile_cons] at h
    split at h
    · exact ih h
    · rename_i hpa
      simp at h
      subst h
      simpa using hpa

theorem getLast_dropWhile_eq (p : Char → Bool) (l : List Char) (c : Char)
    (h : (l.dropWhile p).getLast? = some c) : l.getLast? = some c := by
  induction l with
  | nil => simp [List.dropWhile] at h
  | cons a as ih =>
    rw [List.dropWhile_cons] at h
    split at h
    · have has := ih h
      cases as with
      | nil => simp at has
      | cons b bs => rw [List.getLast?_cons_cons]; exact has
    · exact h

theorem mem_pyStrip (p : Char → Bool) (l : List Char) (c : Char)
    (h : c ∈ pyStrip p l) : c ∈ l := by
  unfold pyStrip at h
  rw [List.mem_reverse] at h
  have h1 := (List.dropWhile_sublist p (l := (l.dropWhile p).reverse)).subset h
  rw [List.mem_reverse] at h1
  exact (List.dropWhile_sublist p (l := l)).subset h1

theorem getLast_pyStrip_false (p : Char → Bool) (l : List Char) (c : Char)
    (h : (pyStrip p l).getLast? = some c) : p c = false := by
  unfold pyStrip at h
  rw [List.getLast?_reverse] at h
  exact head_dropWhile_false p _ c h

theorem head_pyStrip_false (p : Char → Bool) (l : List Char) (c : Char)
    (h : (pyStrip p l).head? = some c) : p c = false := by
  unfold pyStrip at h
  rw [List.head?_reverse] at h
  have h1 := getLast_dropWhile_eq p _ c h
  rw [List.getLast?_reverse] at h1
  exact head_dropWhile_false p _ c h1

theorem pyStrip_replicate (p : Char → Bool) (c : Char) (n : Nat)
    (h : p c = false) : pyStrip p (List.replicate n c) = List.replicate n c := by
  have hdrop : ∀ m : Nat, (List.replicate m c).dropWhile p = List.replicate m c := by
    intro m
    cases m with
    | zero => rfl
    | succ m => rw [List.replicate_succ, List.dropWhile_cons, if_neg (by simp [h])]
  unfold pyStrip
  rw [hdrop n, List.reverse_replicate, hdrop n, List.reverse_replicate]

/-- Claim C5 (amended): `sanitize_filename` always returns a string with
none of the nine invalid characters and with no leading or trailing `.`
(leading or trailing whitespace may survive when it was enclosed in dots,
because `strip()` runs before `strip('.')`); and a nonempty input made
entirely of the nine invalid characters yields a string of underscores of
the same length (not the `'unknown'` placeholder). -/
theorem claim_C5_sanitize_filename (name : List Char) :
    (∀ c ∈ sanitize_filename name, c ∉ invalid_chars)
    ∧ (sanitize_filename name).head? ≠ some '.'
    ∧ (sanitize_filename name).getLast? ≠ some '.'
    ∧ ((∀ c ∈ name, c ∈ invalid_chars) → name ≠ [] →
        sanitize_filename name = List.replicate name.length '_') := by
  refine ⟨?_, ?_, ?_, ?_⟩
  · intro c hc
    unfold sanitize_filename at hc
    split at hc
    · simp at hc
      rcases hc with rfl | rfl | rfl | rfl | rfl | rfl | rfl <;> decide
    · have h1 := mem_pyStrip _ _ _ hc
      have h2 := mem_pyStrip _ _ _ h1
      rcases mem_foldl_replaceChar invalid_chars c name h2 with rfl | ⟨_, hnot⟩
      · decide
      · exact hnot
  · intro h
    unfold sanitize_filename at h
    split at h
    · simp at h
    · have := head_pyStrip_false isDot _ _ h
      simp [isDot] at this
  · intro h
    unfold sanitize_filename at h
    split at h
    · simp at h
    · have := getLast_pyStrip_false isDot _ _ h
      simp [isDot] at this
  · intro hall hne
    have hrep : replaceInvalid name = List.replicate name.length '_' := by
      apply foldl_replaceChar_all
      intro c hc
      exact Or.inl (hall c hc)
    have hstrip : pyStrip isDot (pyStrip isPySpace (replaceInvalid name)) =
        List.replicate name.length '_' := by
      rw [hrep, pyStrip_replicate isPySpace '_' name.length (by decide),
        pyStrip_replicate isDot '_' name.length (by decide)]
    unfold sanitize_filename
    rw [hstrip, if_neg ?_]
    have hlen : name.length ≠ 0 := by
      intro h
      exact hne (List.length_eq_zero.mp h)
    simp [List.isEmpty_iff, hlen]

/-- Counterexample to Claim C5 as stated: sanitizing `".a ."` yields `"a "`,
which ends in a whitespace character, so the output is not free of trailing
whitespace; and sanitizing the all-invalid name `"///"` yields `"___"`,
not the `'unknown'` placeholder. -/
theorem claim_C5_counterexample :
    sanitize_filename ".a .".toList = "a ".toList
    ∧ isPySpace ' ' = true
    ∧ ("a ".toList).getLast? = some ' '
    ∧ (∀ c ∈ "///".toList, c ∈ invalid_chars)
    ∧ sanitize_filename "///".toList = "___".toList
    ∧ "___".toList ≠ "unknown".toList := by
  decide

/-- Witness for C5 at `"///"`: all its characters are invalid, and the
sanitized result is three underscores. -/
theorem claim_C5_sanitize_filename_witness :
    sanitize_filename "///".toList = List.replicate ("///".toList).length '_' :=
  (claim_C5_sanitize_filename "///".toList).2.2.2 (by decide) (by decide)

/-! ## Play-URL Backfill (`bin/fetch_play_urls.py`) -/

/-- A single conditional dict assignment `if c: d[k] = v`. -/
def condSet (d : Doc) (c : Bool) (k : String) (v : JVal) : Doc :=
  if c then Doc.setKey d k v else d

/-- The whitelisted detail fields merged by the backfill. -/
def play_fields : List String :=
  ["vod_play_from", "vod_play_url", "vod_content", "vod_actor",
    "vod_director", "vod_score"]

/-- The field merge of `update_site_with_play_urls` (lines 176-187): each
whitelisted key is copied from the fetched detail into the record when the
detail carries it; `vod_content` is additionally guarded by truthiness
(`'vod_content' in detail and detail.get('vod_content')`); the three
`detail.get(k, '')` reads are guarded by `k in detail`, so the default is
never taken. -/
def update_play_fields (video detail : Doc) : Doc :=
  condSet (condSet (condSet (condSet (condSet (condSet video
    (Doc.hasKey detail "vod_play_from") "vod_play_from"
      ((Doc.lookup detail "vod_play_from").getD .jnull))
    (Doc.hasKey detail "vod_play_url") "vod_play_url"
      ((Doc.lookup detail "vod_play_url").getD .jnull))
    (Doc.hasKey detail "vod_content"
        && ((Doc.lookup detail "vod_content").getD .jnull).truthy) "vod_content"
      ((Doc.lookup detail "vod_content").getD .jnull))
    (Doc.hasKey detail "vod_actor") "vod_actor"
      ((Doc.lookup detail "vod_actor").getD (.jstr "")))
    (Doc.hasKey detail "vod_director") "vod_director"
      ((Doc.lookup detail "vod_director").getD (.jstr "")))
    (Doc.hasKey detail "vod_score") "vod_score"
      ((Doc.lookup detail "vod_score").getD (.jstr ""))

/-- Outcome of processing one record of the list (lines 153-197): the
possibly updated record, the `vod_id`s passed to `fetch_vod_detail` (one
network request each), and the contributions to the success/failure
counters. -/
structure VideoStep where
  video : JVal
  fetched : List JVal
  success_count : Nat
  fail_count : Nat

/-- One iteration of the backfill loop (lines 153-193): skip non-dict
records and records without a truthy `vod_id`; count records that already
carry a truthy `vod_play_url` as successful without fetching; otherwise
fetch the detail (`fetch vod_id = none` models a failed or empty
`fetch_vod_detail`) and merge it when it is a non-empty dict. -/
def processVideo (fetch : JVal → Option Doc) (video : JVal) : VideoStep :=
  match video with
  | .jobj fields =>
    match Doc.lookup fields "vod_id" with
    | none => ⟨video, [], 0, 0⟩
    | some vod_id =>
      if !vod_id.truthy then ⟨video, [], 0, 0⟩
      else if Doc.hasTruthy fields "vod_play_url" then ⟨video, [], 1, 0⟩
      else
        match fetch vod_id with
        | some detail =>
          if detail.isEmpty then ⟨video, [vod_id], 0, 1⟩
          else ⟨.jobj (update_play_fields fields detail), [vod_id], 1, 0⟩
        | none => ⟨video, [vod_id], 0, 1⟩
  | _ => ⟨video, [], 0, 0⟩

/-- Outcome of a whole backfill run over a site's `list`. -/
structure RunResult where
  list : List JVal
  fetched : List JVal
  success_count : Nat
  fail_count : Nat

/-- The record loop of `update_site_with_play_urls` (lines 149-197), given
the detail-fetch oracle. -/
def update_site_with_play_urls (fetch : JVal → Option Doc) :
    List JVal → RunResult
  | [] => ⟨[], [], 0, 0⟩
  | video :: rest =>
    let s := processVideo fetch video
    let r := update_site_with_play_urls fetch rest
    ⟨s.video :: r.list, s.fetched ++ r.fetched,
      s.success_count + r.success_count, s.fail_count + r.fail_count⟩

/-- A record the backfill loop never fetches a detail for: a non-dict
record, a record without a truthy `vod_id`, or a record already carrying a
truthy `vod_play_url`. -/
def video_skips_fetch (video : JVal) : Bool :=
  match video with
  | .jobj fields =>
    match Doc.lookup fields "vod_id" with
    | none => true
    | some vod_id => !vod_id.truthy || Doc.hasTruthy fields "vod_play_url"
  | _ => true

theorem condSet_false (d : Doc) (k : String) (v : JVal) :
    condSet d false k v = d := rfl

theorem lookup_condSet_ne (d : Doc) (c : Bool) (k : String) (v : JVal)
    (q : String) (h : q ≠ k) :
    Doc.lookup (condSet d c k v) q = Doc.lookup d q := by
  unfold condSet
  split
  · exact Doc.lookup_setKey_ne d k v q h
  · rfl

theorem lookup_condSet_self (d : Doc) (c : Bool) (k : String) (v : JVal) :
    Doc.lookup (condSet d c k v) k = if c then some v else Doc.lookup d k := by
  unfold condSet
  split <;> simp_all [Doc.lookup_setKey_self]

theorem lookup_condSet_isSome (d : Doc) (c : Bool) (k : String) (v : JVal)
    (q : String) (h : (Doc.lookup d q).isSome) :
    (Doc.lookup (condSet d c k v) q).isSome := by
  unfold condSet
  split
  · exact Doc.lookup_setKey_isSome d k v q h
  · exact h

theorem processVideo_of_skip (fetch : JVal → Option Doc) (video : JVal)
    (h : video_skips_fetch video = true) :
    (processVideo fetch video).video = video
    ∧ (processVideo fetch video).fetched = []
    ∧ (processVideo fetch video).fail_count = 0 := by
  cases video with
  | jobj fields =>
    simp only [video_skips_fetch] at h
    cases hid : Doc.lookup fields "vod_id" with
    | none => simp [processVideo, hid]
    | some vod_id =>
      simp only [hid] at h
      by_cases htr : vod_id.truthy
      · have hurl : Doc.hasTruthy fields "vod_play_url" = true := by
          simpa [htr] using h
        simp [processVideo, hid, htr, hurl]
      · simp [processVideo, hid, htr]
  | jnull => exact ⟨rfl, rfl, rfl⟩
  | jbool b => exact ⟨rfl, rfl, rfl⟩
  | jnum n => exact ⟨rfl, rfl, rfl⟩
  | jstr s => exact ⟨rfl, rfl, rfl⟩
  | jarr xs => exact ⟨rfl, rfl, rfl⟩

/-- Claim C6 (amended): the backfill merge is field-by-field: each
whitelisted key is written only from the detail, keys absent from the
detail are left untouched, no key present before the merge is removed,
and `vod_content` is only overwritten when the detail's value is truthy,
so a populated `vod_content` is never blanked.  (For the other five
whitelisted keys an empty detail value does overwrite a populated field;
see the counterexample.) -/
theorem claim_C6_merge_additive (video detail : Doc) :
    (∀ q : String, (Doc.lookup video q).isSome = true →
        (Doc.lookup (update_play_fields video detail) q).isSome = true)
    ∧ (∀ q : String, q ∉ play_fields →
        Doc.lookup (update_play_fields video detail) q = Doc.lookup video q)
    ∧ (∀ q ∈ play_fields, Doc.hasKey detail q = false →
        Doc.lookup (update_play_fields video detail) q = Doc.lookup video q)
    ∧ Doc.lookup (update_play_fields video detail) "vod_content" =
        (if Doc.hasKey detail "vod_content"
              && ((Doc.lookup detail "vod_content").getD .jnull).truthy
          then Doc.lookup detail "vod_content"
          else Doc.lookup video "vod_content") := by
  refine ⟨?_, ?_, ?_, ?_⟩
  · intro q hq
    unfold update_play_fields
    exact lookup_condSet_isSome _ _ _ _ _ (lookup_condSet_isSome _ _ _ _ _
      (lookup_condSet_isSome _ _ _ _ _ (lookup_condSet_isSome _ _ _ _ _
        (lookup_condSet_isSome _ _ _ _ _ (lookup_condSet_isSome _ _ _ _ _ hq)))))
  · intro q hq
    simp only [play_fields, List.mem_cons, List.not_mem_nil, or_false, not_or] at hq
    obtain ⟨h1, h2, h3, h4, h5, h6⟩ := hq
    unfold update_play_fields
    rw [lookup_condSet_ne _ _ _ _ _ h6, lookup_condSet_ne _ _ _ _ _ h5,
      lookup_condSet_ne _ _ _ _ _ h4, lookup_condSet_ne _ _ _ _ _ h3,
      lookup_condSet_ne _ _ _ _ _ h2, lookup_condSet_ne _ _ _ _ _ h1]
  · intro q hq hnk
    simp only [play_fields, List.mem_cons, List.not_mem_nil, or_false] at hq
    unfold update_play_fields
    rcases hq with rfl | rfl | rfl | rfl | rfl | rfl
    · rw [lookup_condSet_ne _ _ _ _ _ (by decide),
        lookup_condSet_ne _ _ _ _ _ (by decide),
        lookup_condSet_ne _ _ _ _ _ (by decide),
        lookup_condSet_ne _ _ _ _ _ (by decide),
        lookup_condSet_ne _ _ _ _ _ (by decide), hnk, condSet_false]
    · rw [lookup_condSet_ne _ _ _ _ _ (by decide),
        lookup_condSet_ne _ _ _ _ _ (by decide),
        lookup_condSet_ne _ _ _ _ _ (by decide),
        lookup_condSet_ne _ _ _ _ _ (by decide), hnk, condSet_false,
        lookup_condSet_ne _ _ _ _ _ (by decide)]
    · rw [lookup_condSet_ne _ _ _ _ _ (by decide),
        lookup_condSet_ne _ _ _ _ _ (by decide),
        lookup_condSet_ne _ _ _ _ _ (by decide), hnk]
      simp only [Bool.false_and, condSet_false]
      rw [lookup_condSet_ne _ _ _ _ _ (by decide),
        lookup_condSet_ne _ _ _ _ _ (by decide)]
    · rw [lookup_condSet_ne _ _ _ _ _ (by decide),
        lookup_condSet_ne _ _ _ _ _ (by decide), hnk, condSet_false,
        lookup_condSet_ne _ _ _ _ _ (by decide),
        lookup_condSet_ne _ _ _ _ _ (by decide),
        lookup_condSet_ne _ _ _ _ _ (by decide)]
    · rw [lookup_condSet_ne _ _ _ _ _ (by decide), hnk, condSet_false,
        lookup_condSet_ne _ _ _ _ _ (by decide),
        lookup_condSet_ne _ _ _ _ _ (by decide),
        lookup_condSet_ne _ _ _ _ _ (by decide),
        lookup_condSet_ne _ _ _ _ _ (by decide)]
    · rw [hnk, condSet_false,
        lookup_condSet_ne _ _ _ _ _ (by decide),
        lookup_condSet_ne _ _ _ _ _ (by decide),
        lookup_condSet_ne _ _ _ _ _ (by decide),
        lookup_condSet_ne _ _ _ _ _ (by decide),
        lookup_condSet_ne _ _ _ _ _ (by decide)]
  · unfold update_play_fields
    rw [lookup_condSet_ne _ _ _ _ _ (by decide),
      lookup_condSet_ne _ _ _ _ _ (by decide),
      lookup_condSet_ne _ _ _ _ _ (by decide), lookup_condSet_self,
      lookup_condSet_ne _ _ _ _ _ (by decide),
      lookup_condSet_ne _ _ _ _ _ (by decide)]
    cases hcv : Doc.lookup detail "vod_content" with
    | none => simp [Doc.hasKey, hcv]
    | some w => simp [Doc.hasKey, hcv]

/-- Counterexample to Claim C6 as stated: a record whose populated
`vod_actor` field is blanked by a detail carrying `vod_actor` with the
empty string, because only `vod_content` has an emptiness guard. -/
theorem claim_C6_counterexample :
    Doc.lookup [("vod_actor", JVal.jstr "X")] "vod_actor" = some (.jstr "X")
    ∧ (JVal.jstr "X").truthy = true
    ∧ Doc.lookup
        (update_play_fields [("vod_actor", JVal.jstr "X")]
          [("vod_actor", JVal.jstr "")]) "vod_actor" = some (.jstr "")
    ∧ (JVal.jstr "").truthy = false :=
  ⟨rfl, rfl, rfl, rfl⟩

/-- Witness for C6: a non-whitelisted key of a record is untouched by a
merge with an empty detail. -/
theorem claim_C6_merge_additive_witness :
    Doc.lookup (update_play_fields [("x", JVal.jnull)] []) "x" =
      Doc.lookup [("x", JVal.jnull)] "x" :=
  (claim_C6_merge_additive [("x", JVal.jnull)] []).2.1 "x" (by decide)

/-- Claim C7 (amended): a dict record with a truthy `vod_id` that already
carries a truthy `vod_play_url` is counted as successful and triggers no
detail fetch; consequently a run over a list all of whose records are
skipped (non-dict, no truthy `vod_id`, or truthy `vod_play_url`) — in
particular a second run over output whose records all gained non-empty
play URLs — performs zero fetches, records zero failures, and leaves the
`list` unchanged.  (A second run does re-fetch records that still lack a
truthy `vod_play_url`; see the counterexample.) -/
theorem claim_C7_rerun_no_fetch (fetch : JVal → Option Doc) :
    (∀ (fields : Doc) (vod_id : JVal),
        Doc.lookup fields "vod_id" = some vod_id → vod_id.truthy = true →
        Doc.hasTruthy fields "vod_play_url" = true →
        processVideo fetch (.jobj fields) = ⟨.jobj fields, [], 1, 0⟩)
    ∧ (∀ l : List JVal, (∀ v ∈ l, video_skips_fetch v = true) →
        (update_site_with_play_urls fetch l).list = l
        ∧ (update_site_with_play_urls fetch l).fetched = []
        ∧ (update_site_with_play_urls fetch l).fail_count = 0) := by
  constructor
  · intro fields vod_id hid htr hurl
    simp [processVideo, hid, htr, hurl]
  · intro l hl
    induction l with
    | nil => exact ⟨rfl, rfl, rfl⟩
    | cons v rest ih =>
      have hv := processVideo_of_skip fetch v (hl v (by simp))
      have hrest := ih (fun w hw => hl w (by simp [hw]))
      simp [update_site_with_play_urls, hv.1, hv.2.1, hv.2.2,
        hrest.1, hrest.2.1, hrest.2.2]

/-- Counterexample to Claim C7 as stated: one record with `vod_id = 1` and
no play URL; the (unchanged) upstream detail carries only `vod_actor`, so
the first run fetches and merges but the record still lacks
`vod_play_url`, and the second run fetches `vod_id = 1` again — the rerun
is not free of network calls. -/
theorem claim_C7_counterexample :
    (update_site_with_play_urls (fun _ => some [("vod_actor", JVal.jstr "x")])
        ((update_site_with_play_urls (fun _ => some [("vod_actor", JVal.jstr "x")])
          [JVal.jobj [("vod_id", JVal.jnum 1)]]).list)).fetched = [JVal.jnum 1]
    ∧ [JVal.jnum 1] ≠ ([] : List JVal) :=
  ⟨rfl, by simp⟩

/-- Witness for C7: a record already carrying a play URL is skipped and a
run over the one-record list is fetch-free and identity. -/
theorem claim_C7_rerun_no_fetch_witness :
    processVideo (fun _ => none)
        (.jobj [("vod_id", JVal.jnum 1), ("vod_play_url", JVal.jstr "u")])
      = ⟨.jobj [("vod_id", JVal.jnum 1), ("vod_play_url", JVal.jstr "u")], [], 1, 0⟩
    ∧ (update_site_with_play_urls (fun _ => none)
        [JVal.jobj [("vod_id", JVal.jnum 1), ("vod_play_url", JVal.jstr "u")]]).list
      = [JVal.jobj [("vod_id", JVal.jnum 1), ("vod_play_url", JVal.jstr "u")]] :=
  ⟨(claim_C7_rerun_no_fetch (fun _ => none)).1 _ _ rfl rfl rfl,
    ((claim_C7_rerun_no_fetch (fun _ => none)).2 _
      (by intro v hv; simp at hv; subst hv; rfl)).1⟩

/-! ## Endpoint URL resolution
(`bin/fetch_all_pages.py` lines 32-58 and 121-127; `bin/fetch_play_urls.py`
lines 44-56 are the same logic). -/

/-- Python's `str.replace(pat, rep)` on character lists: scan left to
right; at each position, if the remaining text starts with `pat`, emit
`rep` and skip over the occurrence, else keep one character.  The fuel
argument (instantiated with the text's length) only bounds the number of
steps: for a non-empty pattern every step consumes at least one character,
so the fuel never runs out. -/
def replaceSubAux (pat rep : List Char) : Nat → List Char → List Char
  | _, [] => []
  | 0, s => s
  | fuel + 1, c :: rest =>
    if !pat.isEmpty && pat.isPrefixOf (c :: rest) then
      rep ++ replaceSubAux pat rep fuel (List.drop pat.length (c :: rest))
    else
      c :: replaceSubAux pat rep fuel rest

/-- `s.replace(pat, rep)` for a non-empty pattern. -/
def pyReplace (s pat rep : String) : String :=
  (replaceSubAux pat.toList rep.toList s.toList.length s.toList).asString

/-- `get_site_api_url` (`fetch_all_pages.py` lines 32-58), given the parsed
config's `sites` list: linear scan for the first entry whose `name` equals
`site_name`, returning its `api` (default `''`).  A non-dict entry makes
the Python raise inside the `try`, which returns `None`. -/
def get_site_api_url (sites : List JVal) (site_name : String) : Option JVal :=
  match sites with
  | [] => none
  | site :: rest =>
    match site with
    | .jobj fields =>
      match Doc.lookup fields "name" with
      | some (.jstr n) =>
        if n = site_name then some ((Doc.lookup fields "api").getD (.jstr ""))
        else get_site_api_url rest site_name
      | _ => get_site_api_url rest site_name
    | _ => none

/-- The URL-resolution step of `fetch_all_pages` (lines 121-127):
`site_name = site_file.replace('.json', '')`, then `get_site_api_url`,
then `if not api_url: return None`. -/
def resolve_api_url (sites : List JVal) (site_file : String) : Option JVal :=
  match get_site_api_url sites (pyReplace site_file ".json" "") with
  | some api => if api.truthy then some api else none
  | none => none

def JVal.isObj : JVal → Bool
  | .jobj _ => true
  | _ => false

/-- The `name` entry of a site descriptor, when it is a string (a non-string
`name` never equals the looked-up string in Python). -/
def entry_name (site : JVal) : Option String :=
  match site with
  | .jobj fields =>
    match Doc.lookup fields "name" with
    | some (.jstr n) => some n
    | _ => none
  | _ => none

/-- The amended claim's reading of URL resolution: find the first site
entry whose `name` equals the file name with every occurrence of `.json`
removed, and use its `api` when that is truthy. -/
def resolve_api_url_spec (sites : List JVal) (site_file : String) : Option JVal :=
  match sites.find?
      (fun site => entry_name site == some (pyReplace site_file ".json" "")) with
  | some (.jobj fields) =>
    if ((Doc.lookup fields "api").getD (.jstr "")).truthy then
      some ((Doc.lookup fields "api").getD (.jstr ""))
    else none
  | _ => none

theorem get_site_api_url_eq_find (sites : List JVal) (site_name : String)
    (hobj : ∀ s ∈ sites, s.isObj = true) :
    get_site_api_url sites site_name =
      (match sites.find? (fun site => entry_name site == some site_name) with
       | some (.jobj fields) => some ((Doc.lookup fields "api").getD (.jstr ""))
       | _ => none) := by
  induction sites with
  | nil => rfl
  | cons site rest ih =>
    have hrest : ∀ s ∈ rest, s.isObj = true :=
      fun s hs => hobj s (by simp [hs])
    have hs := hobj site (by simp)
    cases site with
    | jobj fields =>
      cases hn : Doc.lookup fields "name" with
      | none =>
        rw [List.find?_cons_of_neg _ (by simp [entry_name, hn])]
        simp only [get_site_api_url, hn]
        exact ih hrest
      | some v =>
        cases v with
        | jstr n =>
          by_cases hns : n = site_name
          · subst hns
            rw [List.find?_cons_of_pos _ (by simp [entry_name, hn])]
            simp [get_site_api_url, hn]
          · rw [List.find?_cons_of_neg _ (by simp [entry_name, hn, hns])]
            simp only [get_site_api_url, hn, if_neg hns]
            exact ih hrest
        | jnull =>
          rw [List.find?_cons_of_neg _ (by simp [entry_name, hn])]
          simp only [get_site_api_url, hn]
          exact ih hrest
        | jbool b =>
          rw [List.find?_cons_of_neg _ (by simp [entry_name, hn])]
          simp only [get_site_api_url, hn]
          exact ih hrest
        | jnum m =>
          rw [List.find?_cons_of_neg _ (by simp [entry_name, hn])]
          simp only [get_site_api_url, hn]
          exact ih hrest
        | jarr xs =>
          rw [List.find?_cons_of_neg _ (by simp [entry_name, hn])]
          simp only [get_site_api_url, hn]
          exact ih hrest
        | jobj fs =>
          rw [List.find?_cons_of_neg _ (by simp [entry_name, hn])]
          simp only [get_site_api_url, hn]
          exact ih hrest
    | jnull => simp [JVal.isObj] at hs
    | jbool b => simp [JVal.isObj] at hs
    | jnum m => simp [JVal.isObj] at hs
    | jstr t => simp [JVal.isObj] at hs
    | jarr xs => simp [JVal.isObj] at hs

/-- Claim C8 (amended): on a config whose site entries are all objects,
the aggregator resolves the endpoint URL by exact name match against the
file name with every occurrence of the substring `.json` removed (not only
a trailing extension): it uses the `api` of the first entry whose `name`
equals that transformed name when that `api` is truthy, and reports
failure (`None`) when no entry matches or the matched `api` is missing or
empty. -/
theorem claim_C8_url_resolution (sites : List JVal) (site_file : String)
    (hobj : ∀ s ∈ sites, s.isObj = true) :
    resolve_api_url sites site_file = resolve_api_url_spec sites site_file := by
  unfold resolve_api_url resolve_api_url_spec
  rw [get_site_api_url_eq_find sites _ hobj]
  cases hf : sites.find?
      (fun site => entry_name site == some (pyReplace site_file ".json" "")) with
  | none => rfl
  | some s => cases s <;> rfl

/-- Counterexample to Claim C8 as stated: for the file
`"a.json.b.json"`, the base name with the trailing `.json` extension
removed is `"a.json.b"`, and the config has exactly one entry with that
name and a non-empty `api`; yet resolution fails, because the code removes
every `.json` occurrence and looks up `"a.b"` instead. -/
theorem claim_C8_counterexample :
    resolve_api_url
        [JVal.jobj [("name", JVal.jstr "a.json.b"), ("api", JVal.jstr "http://x")]]
        "a.json.b.json" = none
    ∧ "a.json.b" ++ ".json" = "a.json.b.json"
    ∧ pyReplace "a.json.b.json" ".json" "" = "a.b" :=
  ⟨rfl, rfl, rfl⟩

/-- Witness for C8 at a one-entry config with a plain site name. -/
theorem claim_C8_url_resolution_witness :
    resolve_api_url
        [JVal.jobj [("name", JVal.jstr "site1"), ("api", JVal.jstr "http://x")]]
        "site1.json"
      = resolve_api_url_spec
        [JVal.jobj [("name", JVal.jstr "site1"), ("api", JVal.jstr "http://x")]]
        "site1.json" :=
  claim_C8_url_resolution _ _ (by intro s hs; simp at hs; subst hs; rfl)

/-! ## Config Fetcher (`bin/parse_api.py`) -/

/-- Outcome of the HTTP request and JSON decode in `parse_tvbox_api`:
`reqError` models a requests exception or non-2xx status (lines 85-90,
including the generic exception handler), `body none` a received body that
fails JSON decoding (lines 80-83), and `body (some v)` a body that decodes
to `v`. -/
inductive FetchOutcome where
  | reqError : FetchOutcome
  | body : Option JVal → FetchOutcome

/-- Python `len(v)` is defined (no `TypeError`) exactly for the sized JSON
values: strings, arrays and objects; it raises on `None`, booleans and
numbers. -/
def JVal.hasLen : JVal → Bool
  | .jstr _ => true
  | .jarr _ => true
  | .jobj _ => true
  | _ => false

/-- `parse_tvbox_api` (lines 18-90): returns the parsed configuration when
the request succeeded and the body decodes to a JSON array, or to a JSON
object whose diagnostics succeed — lines 63-64 compute
`len(config.get('sites', []))` and `len(config.get('lives', []))`, which
raise `TypeError` on a non-sized value, and that exception is caught by
the generic handler (lines 88-90), which returns `None`.  Every other case
returns `None`.  (In the array branch the printed `len(config)` of line 74
always succeeds.) -/
def parse_tvbox_api : FetchOutcome → Option JVal
  | .reqError => none
  | .body none => none
  | .body (some config) =>
    match config with
    | .jobj fields =>
      if ((Doc.lookup fields "sites").getD (.jarr [])).hasLen
          && ((Doc.lookup fields "lives").getD (.jarr [])).hasLen then
        some (.jobj fields)
      else none
    | .jarr _ => some config
    | _ => none

def JVal.isObjOrArr : JVal → Bool
  | .jobj _ => true
  | .jarr _ => true
  | _ => false

/-- The payloads the Config Fetcher accepts: a top-level array, or a
top-level object whose `sites` and `lives` entries (defaulting to `[]`
when absent) are sized values. -/
def accepts_config : JVal → Bool
  | .jarr _ => true
  | .jobj fields =>
    ((Doc.lookup fields "sites").getD (.jarr [])).hasLen
      && ((Doc.lookup fields "lives").getD (.jarr [])).hasLen
  | _ => false

/-- Claim C9 (amended): `parse_tvbox_api` returns a configuration value iff
the request succeeded and the body parsed to a top-level array, or to a
top-level object whose `sites` and `lives` entries (defaulting to `[]`)
are sized values — the `len()` diagnostics of lines 63-64 raise `TypeError`
otherwise, which the generic handler turns into `None`; in every other
case it returns `None`.  An object payload is accepted regardless of the
contents of its `sites` and `lives` entries beyond their being sized. -/
theorem claim_C9_parse_obj_or_arr :
    (∀ (r : FetchOutcome) (v : JVal),
        parse_tvbox_api r = some v ↔
          r = .body (some v) ∧ accepts_config v = true)
    ∧ (∀ fields : Doc,
        ((Doc.lookup fields "sites").getD (.jarr [])).hasLen = true →
        ((Doc.lookup fields "lives").getD (.jarr [])).hasLen = true →
        parse_tvbox_api (.body (some (.jobj fields))) = some (.jobj fields)) := by
  constructor
  · intro r v
    constructor
    · intro h
      cases r with
      | reqError => simp [parse_tvbox_api] at h
      | body ob =>
        cases ob with
        | none => simp [parse_tvbox_api] at h
        | some config =>
          cases config with
          | jobj fs =>
            simp only [parse_tvbox_api] at h
            split at h
            · rename_i hcond
              simp only [Option.some.injEq] at h
              subst h
              exact ⟨rfl, by simpa [accepts_config] using hcond⟩
            · simp at h
          | jarr xs =>
            simp only [parse_tvbox_api, Option.some.injEq] at h
            subst h
            exact ⟨rfl, rfl⟩
          | jnull => simp [parse_tvbox_api] at h
          | jbool b => simp [parse_tvbox_api] at h
          | jnum n => simp [parse_tvbox_api] at h
          | jstr t => simp [parse_tvbox_api] at h
    · rintro ⟨rfl, hv⟩
      cases v with
      | jobj fs =>
        simp only [accepts_config, Bool.and_eq_true] at hv
        simp [parse_tvbox_api, hv.1, hv.2]
      | jarr xs => rfl
      | jnull => simp [accepts_config] at hv
      | jbool b => simp [accepts_config] at hv
      | jnum n => simp [accepts_config] at hv
      | jstr t => simp [accepts_config] at hv
  · intro fields hs hl
    simp [parse_tvbox_api, hs, hl]

/-- Counterexample to Claim C9 as stated: the payload `{"sites": 1}` is a
JSON object, yet `parse_tvbox_api` returns `None` for it —
`len(config.get('sites', []))` (line 63) raises `TypeError` on the
integer, and the generic `except Exception` (lines 88-90) turns that into
`None` — so an object is not accepted regardless of the contents of its
`sites` and `lives` entries. -/
theorem claim_C9_counterexample :
    (JVal.jobj [("sites", JVal.jnum 1)]).isObjOrArr = true
    ∧ parse_tvbox_api (.body (some (.jobj [("sites", JVal.jnum 1)]))) = none :=
  ⟨rfl, rfl⟩

/-- Witness for C9: an object body whose `sites` is an array (of arbitrary
contents) and whose `lives` is absent (defaulting to `[]`) is accepted
verbatim. -/
theorem claim_C9_parse_obj_or_arr_witness :
    parse_tvbox_api (.body (some (.jobj [("sites", JVal.jarr [JVal.jnum 7])]))) =
      some (.jobj [("sites", JVal.jarr [JVal.jnum 7])]) :=
  claim_C9_parse_obj_or_arr.2 [("sites", JVal.jarr [JVal.jnum 7])] rfl rfl

/-! ## Site Enumerator: the per-site loop (`parse_sites.py` lines 125-199) -/

/-- The counter contribution of one site entry (lines 164-193): a non-dict
entry or an entry without a truthy `api` is a failure; otherwise the fetch
result (`fetchResult i = none` models a caught request/JSON error) must be
truthy and the save (`saveOk i`) must succeed to count as a success.  `i`
is the 1-based position of the entry. -/
def siteStep (fetchResult : Nat → Option JVal) (saveOk : Nat → Bool)
    (i : Nat) (site : JVal) : Nat × Nat :=
  match site with
  | .jobj fields =>
    if ((Doc.lookup fields "api").getD (.jstr "")).truthy then
      match fetchResult i with
      | some cfg =>
        if cfg.truthy then (if saveOk i then (1, 0) else (0, 1)) else (0, 1)
      | none => (0, 1)
    else (0, 1)
  | _ => (0, 1)

/-- The site loop of `parse_all_sites` (lines 164-197), accumulating the
success and failure counters. -/
def siteLoop (fetchResult : Nat → Option JVal) (saveOk : Nat → Bool) :
    Nat → List JVal → Nat × Nat
  | _, [] => (0, 0)
  | i, site :: rest =>
    let step := siteStep fetchResult saveOk i site
    let r := siteLoop fetchResult saveOk (i + 1) rest
    (step.1 + r.1, step.2 + r.2)

/-- `parse_all_sites` (lines 125-199) given the parsed config's `sites`
list and oracles for the per-site fetch and save outcomes: returns
`(success, fail, total)`; an empty `sites` list short-circuits to
`(0, 0, 0)` (line 153). -/
def parse_all_sites (sites : List JVal) (fetchResult : Nat → Option JVal)
    (saveOk : Nat → Bool) : Nat × Nat × Nat :=
  if sites.isEmpty then (0, 0, 0)
  else
    ((siteLoop fetchResult saveOk 1 sites).1,
      (siteLoop fetchResult saveOk 1 sites).2, sites.length)

theorem siteStep_counts (f : Nat → Option JVal) (s : Nat → Bool) (i : Nat)
    (site : JVal) : (siteStep f s i site).1 + (siteStep f s i site).2 = 1 := by
  cases site <;> (simp only [siteStep]; try rfl)
  split
  · split
    · split
      · split <;> rfl
      · rfl
    · rfl
  · rfl

theorem siteLoop_counts (f : Nat → Option JVal) (s : Nat → Bool) :
    ∀ (sites : List JVal) (i : Nat),
      (siteLoop f s i sites).1 + (siteLoop f s i sites).2 = sites.length := by
  intro sites
  induction sites with
  | nil => intro i; rfl
  | cons site rest ih =>
    intro i
    have h1 := siteStep_counts f s i site
    have h2 := ih (i + 1)
    simp only [siteLoop, List.length_cons]
    omega

/-- Claim C10: for a non-empty `sites` list, the triple
`(success, fail, total)` returned by `parse_all_sites` satisfies
`success + fail = total` with `total` the number of entries: every entry
is counted exactly once, as a success or as a failure, whatever the reason
(invalid entry, missing API URL, failed fetch, or failed save). -/
theorem claim_C10_counts_partition (sites : List JVal)
    (fetchResult : Nat → Option JVal) (saveOk : Nat → Bool)
    (hne : sites ≠ []) :
    (parse_all_sites sites fetchResult saveOk).1
        + (parse_all_sites sites fetchResult saveOk).2.1
      = (parse_all_sites sites fetchResult saveOk).2.2
    ∧ (parse_all_sites sites fetchResult saveOk).2.2 = sites.length := by
  have hemp : ¬ (sites.isEmpty = true) := by
    simp [List.isEmpty_iff, hne]
  unfold parse_all_sites
  rw [if_neg hemp]
  exact ⟨siteLoop_counts fetchResult saveOk sites 1, rfl⟩

/-- Witness for C10: a single invalid (non-dict) entry is counted as the
one failure and the totals add up. -/
theorem claim_C10_counts_partition_witness :
    (parse_all_sites [JVal.jnull] (fun _ => none) (fun _ => false)).1
        + (parse_all_sites [JVal.jnull] (fun _ => none) (fun _ => false)).2.1
      = (parse_all_sites [JVal.jnull] (fun _ => none) (fun _ => false)).2.2
    ∧ (parse_all_sites [JVal.jnull] (fun _ => none) (fun _ => false)).2.2 = 1 :=
  claim_C10_counts_partition [JVal.jnull] (fun _ => none) (fun _ => false)
    (by simp)
